import Mathlib

/- Shallow embedding of the efficiency aggregator in src/app.py.
   Timestamps are modelled as integer seconds since the epoch; a calendar
   date is the integer day number (timestamp div 86400), and combining a
   date with a time-of-day is date * 86400 + timeOfDay.  Null database
   values are modelled with Option.  Percentages are rationals; note that
   rational division by zero yields 0 while pandas float division by zero
   yields an infinity — no theorem below relies on the value of a
   percentage whose denominator is zero. -/

inductive TaskCat where
  | travel
  | service
  deriving DecidableEq, Repr

structure PlotRow where
  technician : String
  start : Int
  stop : Int
  task : TaskCat
  date : Int
  deriving DecidableEq, Repr

structure VisitRow where
  leadTechnician : Option String
  startedTravel : Option Int
  arrivalTimeReal : Option Int
  departureTimeReal : Option Int
  sessionID : Int
  deriving DecidableEq, Repr

structure DailyStat where
  technician : String
  date : Int
  idleSecs : Int
  travelSecs : Int
  serviceSecs : Int
  deriving DecidableEq, Repr

structure WalkState where
  idle : Int
  travel : Int
  service : Int
  cur : Int
  deriving DecidableEq, Repr

structure AggRow where
  technician : String
  idleSecs : Int
  travelSecs : Int
  serviceSecs : Int
  idleMins : Int
  travelMins : Int
  days : Nat
  totalWorkMins : Int
  idlePct : ℚ
  travelPct : ℚ
  optPct : ℚ
  deriving DecidableEq, Repr

structure CalcResult where
  aggStats : List AggRow
  idlePct : ℚ
  travelPct : ℚ
  servicePct : ℚ
  plotDf : List PlotRow
  deriving DecidableEq, Repr

/-- Technician label normalisation: a null or empty label becomes "Unknown"
(`row["LeadTechnician"] if row["LeadTechnician"] else "Unknown"`). -/
def techLabel (v : VisitRow) : String :=
  match v.leadTechnician with
  | none => "Unknown"
  | some s => if s = "" then "Unknown" else s

/-- The nested helper add_interval of src/app.py lines 93-104: emit a row
only when both endpoints are present and start < end; the row records the
date of its start timestamp. -/
def add_interval (tech : String) (start stop : Option Int) (task : TaskCat) : Option PlotRow :=
  match start, stop with
  | some s, some e => if s < e then some ⟨tech, s, e, task, s / 86400⟩ else none
  | _, _ => none

def travelInterval (v : VisitRow) : Option PlotRow :=
  add_interval (techLabel v) v.startedTravel v.arrivalTimeReal TaskCat.travel

def serviceInterval (v : VisitRow) : Option PlotRow :=
  add_interval (techLabel v) v.arrivalTimeReal v.departureTimeReal TaskCat.service

/-- The two add_interval calls per visit (travel first, then service). -/
def visitRows (v : VisitRow) : List PlotRow :=
  (travelInterval v).toList ++ (serviceInterval v).toList

/-- The flattening loop building `rows` from the input dataframe. -/
def flattenRows (df : List VisitRow) : List PlotRow :=
  df.flatMap visitRows

/-- Duration_Min column: (End - Start) in seconds, divided by 60. -/
def durationMin (r : PlotRow) : ℚ := ((r.stop - r.start : Int) : ℚ) / 60

/-- The rows of one (technician, date) group. -/
def groupRows (rows : List PlotRow) (t : String) (d : Int) : List PlotRow :=
  rows.filter (fun r => r.technician = t ∧ r.date = d)

/-- Total raw activity of a (technician, date) pair in minutes, the
per-group sum of Duration_Min. -/
def pairActiveMin (rows : List PlotRow) (t : String) (d : Int) : ℚ :=
  ((groupRows rows t d).map durationMin).sum

/-- The minimum-activity filter (src/app.py lines 120-132): keep a row iff
its (technician, date) pair has at least 5 minutes of raw activity. -/
def filteredRows (rows : List PlotRow) : List PlotRow :=
  rows.filter (fun r => 5 ≤ pairActiveMin rows r.technician r.date)

/-- Lexicographic order on (Technician, Date) keys, the order in which
pandas groupby iterates group keys. -/
def keyLe : (String × Int) → (String × Int) → Prop :=
  fun a b => a.1 < b.1 ∨ (a.1 = b.1 ∧ a.2 ≤ b.2)

instance : DecidableRel keyLe := fun a b => by
  unfold keyLe
  infer_instance

/-- Sorting a group by interval start (tech_tasks.sort_values("Start")). -/
def startLe : PlotRow → PlotRow → Prop := fun a b => a.start ≤ b.start

instance : DecidableRel startLe := fun a b => by
  unfold startLe
  infer_instance

instance : IsTotal PlotRow startLe := ⟨fun a b => le_total a.start b.start⟩

instance : IsTrans PlotRow startLe := ⟨fun _ _ _ h1 h2 => le_trans h1 h2⟩

/-- The distinct (Technician, Date) keys, in sorted order, as produced by
plot_df.groupby(["Technician", "Date"]). -/
def groupKeys (rows : List PlotRow) : List (String × Int) :=
  List.insertionSort keyLe ((rows.map (fun r => (r.technician, r.date))).dedup)

/-- One step of the cursor walk over a sorted group (src/app.py lines
156-170): clip the interval to the window, count the gap before it as
idle, add the clipped duration to its category, advance the cursor. -/
def clipStep (dStart dEnd : Int) (st : WalkState) (r : PlotRow) : WalkState :=
  let ts := max r.start dStart
  let te := min r.stop dEnd
  if ts < te then
    { idle := if st.cur < ts then st.idle + (ts - st.cur) else st.idle
      travel := if r.task = TaskCat.travel then st.travel + (te - ts) else st.travel
      service := if r.task = TaskCat.travel then st.service else st.service + (te - ts)
      cur := max st.cur te }
  else st

/-- The whole walk for one group: fold the steps from cursor = window
start, then count the remainder of the window as idle. -/
def walkGroup (dStart dEnd : Int) (l : List PlotRow) : WalkState :=
  let st := l.foldl (clipStep dStart dEnd) ⟨0, 0, 0, dStart⟩
  if st.cur < dEnd then { st with idle := st.idle + (dEnd - st.cur) } else st

/-- The DailyStat of one (technician, date) group: sort the group rows by
start and walk them against the window for that date. -/
def dailyStatFor (rows : List PlotRow) (t : String) (d : Int) (todS todE : Int) : DailyStat :=
  let dStart := d * 86400 + todS
  let dEnd := d * 86400 + todE
  let st := walkGroup dStart dEnd (List.insertionSort startLe (groupRows rows t d))
  ⟨t, d, st.idle, st.travel, st.service⟩

/-- stats_data: one DailyStat per retained (technician, date) key. -/
def dailyStats (rows : List PlotRow) (todS todE : Int) : List DailyStat :=
  (groupKeys rows).map (fun k => dailyStatFor rows k.1 k.2 todS todE)

/-- tech_days_worked: number of distinct (technician, date) pairs of the
filtered rows belonging to one technician. -/
def techDays (rows : List PlotRow) (t : String) : Nat :=
  (((rows.map (fun r => (r.technician, r.date))).dedup).filter (fun k => k.1 = t)).length

/-- Python round to an integer: nearest, ties to even. -/
def pyRoundHalfEven (q : ℚ) : Int :=
  if q - ⌊q⌋ < 1/2 then ⌊q⌋
  else if (1 : ℚ)/2 < q - ⌊q⌋ then ⌊q⌋ + 1
  else if ⌊q⌋ % 2 = 0 then ⌊q⌋ else ⌊q⌋ + 1

/-- round(x, 1) of Python/pandas. -/
def pyRound1 (q : ℚ) : ℚ := (pyRoundHalfEven (q * 10) : ℚ) / 10

/-- One AggregatedStat row (src/app.py lines 192-225): sum the seconds of
the technician over its qualifying days, truncate to whole minutes,
derive the percentages from days * total_work_mins_per_day. -/
def mkAggRow (plotDf : List PlotRow) (stats : List DailyStat) (twm : Int) (t : String) : AggRow :=
  let idleS := ((stats.filter (fun s => s.technician = t)).map (·.idleSecs)).sum
  let travelS := ((stats.filter (fun s => s.technician = t)).map (·.travelSecs)).sum
  let serviceS := ((stats.filter (fun s => s.technician = t)).map (·.serviceSecs)).sum
  let idleM := idleS.tdiv 60
  let travelM := travelS.tdiv 60
  let days := techDays plotDf t
  let total : Int := (days : Int) * twm
  { technician := t
    idleSecs := idleS
    travelSecs := travelS
    serviceSecs := serviceS
    idleMins := idleM
    travelMins := travelM
    days := days
    totalWorkMins := total
    idlePct := pyRound1 ((idleM : ℚ) / (total : ℚ) * 100)
    travelPct := pyRound1 ((travelM : ℚ) / (total : ℚ) * 100)
    optPct := pyRound1 (((idleM + travelM : Int) : ℚ) / (total : ℚ) * 100) }

/-- agg_stats: one row per technician of the daily stats, in sorted
order as produced by groupby("Technician"). -/
def aggregate (plotDf : List PlotRow) (stats : List DailyStat) (twm : Int) : List AggRow :=
  (List.insertionSort (fun a b : String => a ≤ b)
    ((stats.map (·.technician)).dedup)).map (mkAggRow plotDf stats twm)

/-- The tail of calculate_efficiency_stats once the flattened rows are
known.  When the filter removes every row, pandas raises a KeyError at
pd.DataFrame([]).groupby("Technician"); this is the error branch. -/
def calcFromRows (rows : List PlotRow) (todS todE twm : Int) : Except String CalcResult :=
  if rows.isEmpty then Except.ok ⟨[], 0, 0, 0, []⟩
  else
    let plotDf := filteredRows rows
    let stats := dailyStats plotDf todS todE
    if stats.isEmpty then Except.error "KeyError: Technician"
    else
      let totalPossibleSecs : Int := (stats.length : Int) * twm * 60
      let globalPct := fun (x : Int) =>
        if 0 < totalPossibleSecs then pyRound1 ((x : ℚ) / (totalPossibleSecs : ℚ) * 100) else 0
      Except.ok ⟨aggregate plotDf stats twm,
        globalPct ((stats.map (·.idleSecs)).sum),
        globalPct ((stats.map (·.travelSecs)).sum),
        globalPct ((stats.map (·.serviceSecs)).sum),
        plotDf⟩

/-- calculate_efficiency_stats of src/app.py lines 79-247.  The
target_date argument is accepted and unused, as in the source. -/
def calculate_efficiency_stats (df : List VisitRow) (targetDate todS todE twm : Int) :
    Except String CalcResult :=
  if df.isEmpty then Except.ok ⟨[], 0, 0, 0, []⟩
  else calcFromRows (flattenRows df) todS todE twm

/- Concrete datasets used by the concrete-scenario theorems and witnesses.
   Times of day on day 0: 06:00 = 21600, 06:30 = 23400, 08:00 = 28800,
   08:50 = 31800, 09:00 = 32400, 09:02 = 32520, 09:30 = 34200,
   09:40 = 34800, 09:45 = 35100, 10:00 = 36000, 17:00 = 61200. -/

/-- One visit of technician T1: travel 08:50-09:00, service 09:00-09:40. -/
def df6 : List VisitRow :=
  [⟨some "T1", some 31800, some 32400, some 34800, 1⟩]

/-- Technician T1 with overlapping intervals: a visit giving travel
09:00-10:00 and a second visit giving service 09:30-09:45 inside it. -/
def df2 : List VisitRow :=
  [⟨some "T1", some 32400, some 36000, none, 1⟩,
   ⟨some "T1", none, some 34200, some 35100, 2⟩]

/-- The df6 visit plus a 2-minute visit of technician T3, which is below
the 5-minute activity threshold. -/
def df4 : List VisitRow :=
  [⟨some "T1", some 31800, some 32400, some 34800, 1⟩,
   ⟨some "T3", some 32400, some 32520, none, 2⟩]

/-- Technician T2 with 30 minutes of travel 06:00-06:30, entirely before
the 08:00-17:00 calculation window. -/
def df9 : List VisitRow :=
  [⟨some "T2", some 21600, some 23400, none, 1⟩]

/-- A visit whose timestamps are all null: both intervals are dropped. -/
def dfMalformed : List VisitRow :=
  [⟨some "T1", none, none, none, 1⟩]

/-- The AggregatedStat row that df6 produces with window 08:00-17:00 and
540 total work minutes per day. -/
def aggRow6 : AggRow :=
  ⟨"T1", 29400, 600, 2400, 490, 10, 1, 540, 907/10, 19/10, 926/10⟩

/-- The full result that df6 produces. -/
def res6 : CalcResult :=
  ⟨[aggRow6], 907/10, 19/10, 74/10,
   [⟨"T1", 31800, 32400, TaskCat.travel, 0⟩, ⟨"T1", 32400, 34800, TaskCat.service, 0⟩]⟩

/-- The flattened interval rows of df6. -/
def L6 : List PlotRow :=
  [⟨"T1", 31800, 32400, TaskCat.travel, 0⟩, ⟨"T1", 32400, 34800, TaskCat.service, 0⟩]

/-- The DailyStat of the single (T1, day 0) group of df6. -/
def S6 : DailyStat := ⟨"T1", 0, 29400, 600, 2400⟩

/-- The flattened interval rows of df2. -/
def L2 : List PlotRow :=
  [⟨"T1", 32400, 36000, TaskCat.travel, 0⟩, ⟨"T1", 34200, 35100, TaskCat.service, 0⟩]

/-- A dead interval pair: both endpoints present but start at or after
end, so add_interval drops it. -/
def deadPair : Option Int → Option Int → Bool
  | some s, some e => e ≤ s
  | _, _ => false

/-- Remove the dead intervals of a visit by blanking the endpoint that
only the dead interval uses (travel-start for a dead travel interval,
departure for a dead service interval). -/
def pruneDead (v : VisitRow) : VisitRow :=
  { v with
    startedTravel := if deadPair v.startedTravel v.arrivalTimeReal then none else v.startedTravel
    departureTimeReal :=
      if deadPair v.arrivalTimeReal v.departureTimeReal then none else v.departureTimeReal }

/- Helper lemmas about the embedded pipeline. -/

theorem mem_visitRows_start_lt_stop {v : VisitRow} {r : PlotRow} (h : r ∈ visitRows v) :
    r.start < r.stop := by
  have emit : ∀ (tech : String) (a b : Option Int) (k : TaskCat),
      add_interval tech a b k = some r → r.start < r.stop := by
    intro tech a b k hr
    unfold add_interval at hr
    match a, b with
    | some s, some e =>
      by_cases hlt : s < e
      · simp only [hlt, if_pos] at hr
        cases hr
        exact hlt
      · simp [hlt] at hr
    | some _, none => simp at hr
    | none, some _ => simp at hr
    | none, none => simp at hr
  unfold visitRows at h
  rcases List.mem_append.1 h with h1 | h1
  · rcases Option.mem_toList.1 h1 with h2
    exact emit _ _ _ _ h2
  · rcases Option.mem_toList.1 h1 with h2
    exact emit _ _ _ _ h2

theorem mem_flattenRows_start_lt_stop {df : List VisitRow} {r : PlotRow}
    (h : r ∈ flattenRows df) : r.start < r.stop := by
  unfold flattenRows at h
  rcases List.mem_flatMap.1 h with ⟨v, _, hr⟩
  exact mem_visitRows_start_lt_stop hr

theorem mem_filteredRows {rows : List PlotRow} {r : PlotRow} :
    r ∈ filteredRows rows ↔ r ∈ rows ∧ 5 ≤ pairActiveMin rows r.technician r.date := by
  unfold filteredRows
  simp [List.mem_filter]

theorem mem_groupRows {rows : List PlotRow} {r : PlotRow} {t : String} {d : Int} :
    r ∈ groupRows rows t d ↔ r ∈ rows ∧ r.technician = t ∧ r.date = d := by
  unfold groupRows
  simp [List.mem_filter]

theorem mem_groupKeys {rows : List PlotRow} {k : String × Int} :
    k ∈ groupKeys rows ↔ ∃ r ∈ rows, (r.technician, r.date) = k := by
  unfold groupKeys
  rw [(List.perm_insertionSort keyLe _).mem_iff, List.mem_dedup, List.mem_map]

theorem pairActiveMin_empty {rows : List PlotRow} {t : String} {d : Int}
    (h : groupRows rows t d = []) : pairActiveMin rows t d = 0 := by
  unfold pairActiveMin
  rw [h]
  simp

theorem clipStep_of_clip_empty {dStart dEnd : Int} {st : WalkState} {r : PlotRow}
    (h : min r.stop dEnd ≤ max r.start dStart) : clipStep dStart dEnd st r = st := by
  unfold clipStep
  simp only [if_neg (not_lt.2 h)]

theorem clip_foldl_conservation (dStart dEnd : Int) :
    ∀ (l : List PlotRow) (st : WalkState),
      st.cur ≤ dEnd →
      st.idle + st.travel + st.service = st.cur - dStart →
      (∀ r ∈ l, st.cur ≤ max r.start dStart) →
      l.Pairwise (fun a b => a.stop ≤ b.start) →
      (l.foldl (clipStep dStart dEnd) st).idle + (l.foldl (clipStep dStart dEnd) st).travel
          + (l.foldl (clipStep dStart dEnd) st).service
        = (l.foldl (clipStep dStart dEnd) st).cur - dStart ∧
      (l.foldl (clipStep dStart dEnd) st).cur ≤ dEnd := by
  intro l
  induction l with
  | nil =>
    intro st hcur hsum _ _
    exact ⟨hsum, hcur⟩
  | cons r l ih =>
    intro st hcur hsum hbound hpair
    rw [List.foldl_cons]
    rcases List.pairwise_cons.1 hpair with ⟨hhead, htail⟩
    have hts : st.cur ≤ max r.start dStart := hbound r (List.mem_cons_self r l)
    by_cases hcl : max r.start dStart < min r.stop dEnd
    · have hcur' : clipStep dStart dEnd st r
          = { idle := if st.cur < max r.start dStart
                then st.idle + (max r.start dStart - st.cur) else st.idle
              travel := if r.task = TaskCat.travel
                then st.travel + (min r.stop dEnd - max r.start dStart) else st.travel
              service := if r.task = TaskCat.travel
                then st.service else st.service + (min r.stop dEnd - max r.start dStart)
              cur := max st.cur (min r.stop dEnd) } := by
        unfold clipStep
        simp only [if_pos hcl]
      have hcurlt : st.cur < min r.stop dEnd := lt_of_le_of_lt hts hcl
      have hmax : max st.cur (min r.stop dEnd) = min r.stop dEnd :=
        max_eq_right hcurlt.le
      apply ih
      · rw [hcur']
        simp only [hmax]
        exact min_le_right _ _
      · rw [hcur']
        simp only [hmax]
        by_cases hidle : st.cur < max r.start dStart <;>
          by_cases htask : r.task = TaskCat.travel <;>
          simp only [hidle, htask, if_pos, if_neg, if_true, if_false] <;>
          omega
      · intro r' hr'
        rw [hcur']
        simp only [hmax]
        have h1 : r.stop ≤ r'.start := hhead r' hr'
        have h2 : min r.stop dEnd ≤ r.stop := min_le_left _ _
        have h3 : r'.start ≤ max r'.start dStart := le_max_left _ _
        omega
      · exact htail
    · rw [clipStep_of_clip_empty (not_lt.1 hcl)]
      apply ih st hcur hsum _ htail
      intro r' hr'
      exact hbound r' (List.mem_cons_of_mem r hr')

theorem clip_foldl_idle (dStart dEnd : Int) :
    ∀ (l : List PlotRow) (st : WalkState),
      dStart ≤ st.cur →
      st.cur ≤ dEnd →
      st.idle ≤ st.cur - dStart →
      (l.foldl (clipStep dStart dEnd) st).idle ≤ (l.foldl (clipStep dStart dEnd) st).cur - dStart ∧
      dStart ≤ (l.foldl (clipStep dStart dEnd) st).cur ∧
      (l.foldl (clipStep dStart dEnd) st).cur ≤ dEnd := by
  intro l
  induction l with
  | nil =>
    intro st h1 h2 h3
    exact ⟨h3, h1, h2⟩
  | cons r l ih =>
    intro st h1 h2 h3
    rw [List.foldl_cons]
    by_cases hcl : max r.start dStart < min r.stop dEnd
    · have hcur' : clipStep dStart dEnd st r
          = { idle := if st.cur < max r.start dStart
                then st.idle + (max r.start dStart - st.cur) else st.idle
              travel := if r.task = TaskCat.travel
                then st.travel + (min r.stop dEnd - max r.start dStart) else st.travel
              service := if r.task = TaskCat.travel
                then st.service else st.service + (min r.stop dEnd - max r.start dStart)
              cur := max st.cur (min r.stop dEnd) } := by
        unfold clipStep
        simp only [if_pos hcl]
      apply ih
      · rw [hcur']
        simp only
        exact le_trans h1 (le_max_left _ _)
      · rw [hcur']
        simp only
        exact max_le h2 (min_le_right _ _)
      · rw [hcur']
        have hc1 : st.cur ≤ max st.cur (min r.stop dEnd) := le_max_left _ _
        have hc2 : max r.start dStart ≤ min r.stop dEnd := hcl.le
        have hc3 : min r.stop dEnd ≤ max st.cur (min r.stop dEnd) := le_max_right _ _
        by_cases hidle : st.cur < max r.start dStart <;>
          simp only [hidle, if_pos, if_neg, if_true, if_false] <;>
          omega
    · rw [clipStep_of_clip_empty (not_lt.1 hcl)]
      exact ih st h1 h2 h3

theorem clip_foldl_skip (dStart dEnd : Int) :
    ∀ (l : List PlotRow) (st : WalkState),
      (∀ r ∈ l, min r.stop dEnd ≤ max r.start dStart) →
      l.foldl (clipStep dStart dEnd) st = st := by
  intro l
  induction l with
  | nil => intro st _; rfl
  | cons r l ih =>
    intro st h
    rw [List.foldl_cons, clipStep_of_clip_empty (h r (List.mem_cons_self r l))]
    exact ih st (fun r' hr' => h r' (List.mem_cons_of_mem r hr'))

theorem walkGroup_conservation {dStart dEnd : Int} {l : List PlotRow}
    (hle : dStart ≤ dEnd) (hpair : l.Pairwise (fun a b => a.stop ≤ b.start)) :
    (walkGroup dStart dEnd l).idle + (walkGroup dStart dEnd l).travel
      + (walkGroup dStart dEnd l).service = dEnd - dStart := by
  unfold walkGroup
  have h := clip_foldl_conservation dStart dEnd l ⟨0, 0, 0, dStart⟩ hle (by simp)
    (fun r _ => le_max_right _ _) hpair
  rcases h with ⟨hsum, hcur⟩
  by_cases hlt : (l.foldl (clipStep dStart dEnd) ⟨0, 0, 0, dStart⟩).cur < dEnd <;>
    simp only [hlt, if_pos, if_neg, if_true, if_false] <;>
    omega

theorem walkGroup_idle_le {dStart dEnd : Int} (l : List PlotRow) (hle : dStart ≤ dEnd) :
    (walkGroup dStart dEnd l).idle ≤ dEnd - dStart := by
  unfold walkGroup
  have h := clip_foldl_idle dStart dEnd l ⟨0, 0, 0, dStart⟩ le_rfl hle (by simp)
  rcases h with ⟨hidle, hlo, hhi⟩
  by_cases hlt : (l.foldl (clipStep dStart dEnd) ⟨0, 0, 0, dStart⟩).cur < dEnd <;>
    simp only [hlt, if_pos, if_neg, if_true, if_false] <;>
    omega

theorem walkGroup_all_outside {dStart dEnd : Int} {l : List PlotRow} (hle : dStart ≤ dEnd)
    (h : ∀ r ∈ l, min r.stop dEnd ≤ max r.start dStart) :
    walkGroup dStart dEnd l = ⟨dEnd - dStart, 0, 0, dStart⟩ := by
  unfold walkGroup
  rw [clip_foldl_skip dStart dEnd l ⟨0, 0, 0, dStart⟩ h]
  by_cases hlt : dStart < dEnd
  · simp only [hlt, if_pos, if_true]
    congr 1
    omega
  · have : dStart = dEnd := le_antisymm hle (not_lt.1 hlt)
    simp only [hlt, if_neg, if_false]
    rw [this]
    congr 1
    omega

theorem sorted_disjoint_chain {l : List PlotRow}
    (hlt : ∀ r ∈ l, r.start < r.stop)
    (hdisj : l.Pairwise (fun a b => a.stop ≤ b.start ∨ b.stop ≤ a.start)) :
    (List.insertionSort startLe l).Pairwise (fun a b => a.stop ≤ b.start) := by
  have hperm := List.perm_insertionSort startLe l
  have hdisj' : (List.insertionSort startLe l).Pairwise
      (fun a b => a.stop ≤ b.start ∨ b.stop ≤ a.start) :=
    (hperm.pairwise_iff (fun {x y} h => Or.symm h)).2 hdisj
  have hsorted : (List.insertionSort startLe l).Pairwise startLe :=
    List.sorted_insertionSort startLe l
  refine (hdisj'.and hsorted).imp_of_mem ?_
  intro a b ha hb hab
  rcases hab with ⟨hd, hle⟩
  rcases hd with hd | hd
  · exact hd
  · have hbl : b.start < b.stop := hlt b (hperm.subset hb)
    have : a.start ≤ b.start := hle
    omega

theorem dailyStatFor_technician {rows : List PlotRow} {t : String} {d todS todE : Int} :
    (dailyStatFor rows t d todS todE).technician = t := rfl

theorem dailyStatFor_date {rows : List PlotRow} {t : String} {d todS todE : Int} :
    (dailyStatFor rows t d todS todE).date = d := rfl

theorem dailyStatFor_stats {rows : List PlotRow} {t : String} {d todS todE : Int} :
    (dailyStatFor rows t d todS todE).idleSecs
        = (walkGroup (d * 86400 + todS) (d * 86400 + todE)
            (List.insertionSort startLe (groupRows rows t d))).idle ∧
      (dailyStatFor rows t d todS todE).travelSecs
        = (walkGroup (d * 86400 + todS) (d * 86400 + todE)
            (List.insertionSort startLe (groupRows rows t d))).travel ∧
      (dailyStatFor rows t d todS todE).serviceSecs
        = (walkGroup (d * 86400 + todS) (d * 86400 + todE)
            (List.insertionSort startLe (groupRows rows t d))).service :=
  ⟨rfl, rfl, rfl⟩

theorem mkAggRow_technician {p : List PlotRow} {s : List DailyStat} {twm : Int} {t : String} :
    (mkAggRow p s twm t).technician = t := rfl

theorem calcFromRows_cases {rows : List PlotRow} {todS todE twm : Int} {res : CalcResult}
    (h : calcFromRows rows todS todE twm = Except.ok res) :
    (res.aggStats = [] ∧ res.plotDf = []) ∨
    (res.plotDf = filteredRows rows ∧
     res.aggStats = aggregate (filteredRows rows) (dailyStats (filteredRows rows) todS todE) twm) := by
  unfold calcFromRows at h
  by_cases h1 : rows.isEmpty
  · rw [if_pos h1] at h
    cases h
    exact Or.inl ⟨rfl, rfl⟩
  · rw [if_neg h1] at h
    simp only at h
    by_cases h2 : (dailyStats (filteredRows rows) todS todE).isEmpty
    · rw [if_pos h2] at h
      cases h
    · rw [if_neg h2] at h
      cases h
      exact Or.inr ⟨rfl, rfl⟩

theorem calculate_cases {df : List VisitRow} {targetDate todS todE twm : Int} {res : CalcResult}
    (h : calculate_efficiency_stats df targetDate todS todE twm = Except.ok res) :
    (res.aggStats = [] ∧ res.plotDf = []) ∨
    (res.plotDf = filteredRows (flattenRows df) ∧
     res.aggStats = aggregate (filteredRows (flattenRows df))
       (dailyStats (filteredRows (flattenRows df)) todS todE) twm) := by
  unfold calculate_efficiency_stats at h
  by_cases h1 : df.isEmpty
  · rw [if_pos h1] at h
    cases h
    exact Or.inl ⟨rfl, rfl⟩
  · rw [if_neg h1] at h
    exact calcFromRows_cases h

theorem sum_map_durationMin (l : List PlotRow) :
    (l.map durationMin).sum = (((l.map (fun r => r.stop - r.start)).sum : Int) : ℚ) / 60 := by
  induction l with
  | nil => simp
  | cons r l ih =>
    simp only [List.map_cons, List.sum_cons, ih, durationMin]
    push_cast
    ring

theorem pairActiveMin_ge_iff (rows : List PlotRow) (t : String) (d : Int) :
    5 ≤ pairActiveMin rows t d
      ↔ 300 ≤ ((groupRows rows t d).map (fun r => r.stop - r.start)).sum := by
  unfold pairActiveMin
  rw [sum_map_durationMin, le_div_iff₀ (by norm_num : (0 : ℚ) < 60)]
  constructor
  · intro h
    exact_mod_cast h
  · intro h
    exact_mod_cast h

theorem filteredRows_eq_int (rows : List PlotRow) :
    filteredRows rows = rows.filter
      (fun r => 300 ≤ ((groupRows rows r.technician r.date).map (fun x => x.stop - x.start)).sum) := by
  unfold filteredRows
  apply List.filter_congr
  intro r _
  rw [decide_eq_decide]
  exact pairActiveMin_ge_iff rows r.technician r.date

theorem flattenRows_df2_eval : flattenRows df2 = L2 := by decide

theorem flattenRows_df6_eval : flattenRows df6 = L6 := by decide

theorem filteredRows_df2_eval : filteredRows (flattenRows df2) = L2 := by
  rw [flattenRows_df2_eval, filteredRows_eq_int]
  decide

theorem filteredRows_df6_eval : filteredRows (flattenRows df6) = L6 := by
  rw [flattenRows_df6_eval, filteredRows_eq_int]
  decide

/-- C1 (amended): for every (technician, date) group retained after the
minimum-activity filter whose intervals are pairwise non-overlapping, the
DailyStat produced by calculate_efficiency_stats satisfies idle seconds +
travel seconds + service seconds = window end minus window start, for
every window with start before end.  Without the non-overlap hypothesis
the sum can exceed the window length, because the walk adds the full
clipped duration of an interval to its category even where that interval
overlaps time already covered by an earlier interval. -/
theorem claim1_conservation_of_disjoint (df : List VisitRow) (todS todE : Int)
    (t : String) (d : Int)
    (hwin : todS < todE)
    (hmem : (t, d) ∈ groupKeys (filteredRows (flattenRows df)))
    (hdisj : (groupRows (filteredRows (flattenRows df)) t d).Pairwise
      (fun a b => a.stop ≤ b.start ∨ b.stop ≤ a.start)) :
    (dailyStatFor (filteredRows (flattenRows df)) t d todS todE).idleSecs
      + (dailyStatFor (filteredRows (flattenRows df)) t d todS todE).travelSecs
      + (dailyStatFor (filteredRows (flattenRows df)) t d todS todE).serviceSecs
      = todE - todS := by
  have hlt : ∀ r ∈ groupRows (filteredRows (flattenRows df)) t d, r.start < r.stop := by
    intro r hr
    exact mem_flattenRows_start_lt_stop (mem_filteredRows.1 (mem_groupRows.1 hr).1).1
  have hchain := sorted_disjoint_chain hlt hdisj
  have hle : d * 86400 + todS ≤ d * 86400 + todE := by omega
  have hsum := walkGroup_conservation hle hchain
  rcases @dailyStatFor_stats (filteredRows (flattenRows df)) t d todS todE with ⟨h1, h2, h3⟩
  rw [h1, h2, h3]
  omega

/-- Witness for C1 at the df6 dataset, whose two intervals are disjoint:
the group conserves the 08:00-17:00 window length of 32400 seconds. -/
theorem claim1_witness :
    (28800 : Int) < 61200 ∧
    ("T1", (0 : Int)) ∈ groupKeys (filteredRows (flattenRows df6)) ∧
    (groupRows (filteredRows (flattenRows df6)) "T1" 0).Pairwise
      (fun a b => a.stop ≤ b.start ∨ b.stop ≤ a.start) ∧
    (dailyStatFor (filteredRows (flattenRows df6)) "T1" 0 28800 61200).idleSecs
      + (dailyStatFor (filteredRows (flattenRows df6)) "T1" 0 28800 61200).travelSecs
      + (dailyStatFor (filteredRows (flattenRows df6)) "T1" 0 28800 61200).serviceSecs
      = 61200 - 28800 := by
  have h2 : ("T1", (0 : Int)) ∈ groupKeys (filteredRows (flattenRows df6)) := by
    rw [filteredRows_df6_eval]
    decide
  have h3 : (groupRows (filteredRows (flattenRows df6)) "T1" 0).Pairwise
      (fun a b => a.stop ≤ b.start ∨ b.stop ≤ a.start) := by
    rw [filteredRows_df6_eval]
    decide
  exact ⟨by decide, h2, h3,
    claim1_conservation_of_disjoint df6 28800 61200 "T1" 0 (by decide) h2 h3⟩

/-- C1 counterexample: in the df2 dataset the travel interval 09:00-10:00
and the service interval 09:30-09:45 of the retained (T1, day 0) group
overlap; the DailyStat sums to 33300 seconds, not the 32400-second window
length, so the conservation law fails as stated. -/
theorem claim1_counterexample :
    (28800 : Int) < 61200 ∧
    ("T1", (0 : Int)) ∈ groupKeys (filteredRows (flattenRows df2)) ∧
    ¬((dailyStatFor (filteredRows (flattenRows df2)) "T1" 0 28800 61200).idleSecs
      + (dailyStatFor (filteredRows (flattenRows df2)) "T1" 0 28800 61200).travelSecs
      + (dailyStatFor (filteredRows (flattenRows df2)) "T1" 0 28800 61200).serviceSecs
      = 61200 - 28800) := by
  have hf : filteredRows (flattenRows df2) = L2 := filteredRows_df2_eval
  refine ⟨by decide, ?_, ?_⟩
  · rw [hf]
    decide
  · rw [hf]
    decide

/-- C2 (amended): in the overlap scenario (travel 09:00-10:00, service
09:30-09:45 inside it, window 08:00-17:00) no idle time is added for the
overlapped region and the cursor, already at the travel end, is not
advanced by the service interval, but the service interval still
contributes its full clipped duration of 900 seconds to the service
accumulator: the cursor rule prevents double counting against idle only,
not across the category accumulators. -/
theorem claim2_overlap_service_count :
    dailyStatFor (filteredRows (flattenRows df2)) "T1" 0 28800 61200
      = ⟨"T1", 0, 28800, 3600, 900⟩ := by
  have hf : filteredRows (flattenRows df2) = L2 := filteredRows_df2_eval
  rw [hf]
  decide

/-- C2 counterexample: in that scenario the service accumulator receives
900 seconds, not 0, so the claimed tie-break does not hold as stated. -/
theorem claim2_counterexample :
    ("T1", (0 : Int)) ∈ groupKeys (filteredRows (flattenRows df2)) ∧
    (dailyStatFor (filteredRows (flattenRows df2)) "T1" 0 28800 61200).serviceSecs ≠ 0 := by
  have hf : filteredRows (flattenRows df2) = L2 := filteredRows_df2_eval
  constructor
  · rw [hf]
    decide
  · rw [hf]
    decide

/-- C10: for every retained (technician, date) group and every window with
start at or before end, the accumulated idle seconds never exceed the
window length: the cursor is monotone, stays inside the window, and idle
only counts uncovered sub-spans of the window. -/
theorem claim10_idle_bound (df : List VisitRow) (todS todE : Int)
    (hwin : todS ≤ todE) (s : DailyStat)
    (hs : s ∈ dailyStats (filteredRows (flattenRows df)) todS todE) :
    s.idleSecs ≤ todE - todS := by
  unfold dailyStats at hs
  rcases List.mem_map.1 hs with ⟨k, _, rfl⟩
  have hle : k.2 * 86400 + todS ≤ k.2 * 86400 + todE := by omega
  have h := walkGroup_idle_le
    (List.insertionSort startLe (groupRows (filteredRows (flattenRows df)) k.1 k.2)) hle
  have h1 := (@dailyStatFor_stats (filteredRows (flattenRows df)) k.1 k.2 todS todE).1
  rw [h1]
  omega

/-- Witness for C10 at the df6 dataset: the idle seconds of its single
group stay at or below the window length. -/
theorem claim10_witness :
    (28800 : Int) ≤ 61200 ∧
    dailyStatFor (filteredRows (flattenRows df6)) "T1" 0 28800 61200
      ∈ dailyStats (filteredRows (flattenRows df6)) 28800 61200 ∧
    (dailyStatFor (filteredRows (flattenRows df6)) "T1" 0 28800 61200).idleSecs
      ≤ 61200 - 28800 := by
  have hmem : ("T1", (0 : Int)) ∈ groupKeys (filteredRows (flattenRows df6)) := by
    rw [filteredRows_df6_eval]
    decide
  have hs : dailyStatFor (filteredRows (flattenRows df6)) "T1" 0 28800 61200
      ∈ dailyStats (filteredRows (flattenRows df6)) 28800 61200 := by
    unfold dailyStats
    exact List.mem_map_of_mem _ hmem
  exact ⟨by decide, hs, claim10_idle_bound df6 28800 61200 (by decide) _ hs⟩

theorem add_interval_none_start {tech : String} {x : Option Int} {task : TaskCat} :
    add_interval tech none x task = none := by
  cases x <;> rfl

theorem add_interval_none_stop {tech : String} {x : Option Int} {task : TaskCat} :
    add_interval tech x none task = none := by
  cases x <;> rfl

theorem add_interval_dead {tech : String} {s e : Int} {task : TaskCat} (h : e ≤ s) :
    add_interval tech (some s) (some e) task = none := by
  unfold add_interval
  exact if_neg (not_lt.2 h)

theorem travelInterval_pruneDead (v : VisitRow) :
    travelInterval (pruneDead v) = travelInterval v := by
  have htech : techLabel (pruneDead v) = techLabel v := rfl
  have har : (pruneDead v).arrivalTimeReal = v.arrivalTimeReal := rfl
  unfold travelInterval
  rw [htech, har]
  by_cases h : deadPair v.startedTravel v.arrivalTimeReal = true
  · have hst : (pruneDead v).startedTravel = none := by
      unfold pruneDead
      simp [h]
    rw [hst, add_interval_none_start]
    rcases hs : v.startedTravel with _ | s
    · rw [add_interval_none_start]
    · rcases ha : v.arrivalTimeReal with _ | a
      · rw [add_interval_none_stop]
      · rw [hs, ha] at h
        unfold deadPair at h
        simp only [decide_eq_true_eq] at h
        rw [add_interval_dead h]
  · have hst : (pruneDead v).startedTravel = v.startedTravel := by
      unfold pruneDead
      simp [h]
    rw [hst]

theorem serviceInterval_pruneDead (v : VisitRow) :
    serviceInterval (pruneDead v) = serviceInterval v := by
  have htech : techLabel (pruneDead v) = techLabel v := rfl
  have har : (pruneDead v).arrivalTimeReal = v.arrivalTimeReal := rfl
  unfold serviceInterval
  rw [htech, har]
  by_cases h : deadPair v.arrivalTimeReal v.departureTimeReal = true
  · have hdp : (pruneDead v).departureTimeReal = none := by
      unfold pruneDead
      simp [h]
    rw [hdp, add_interval_none_stop]
    rcases ha : v.arrivalTimeReal with _ | a
    · rw [add_interval_none_start]
    · rcases hd : v.departureTimeReal with _ | e
      · rw [add_interval_none_stop]
      · rw [ha, hd] at h
        unfold deadPair at h
        simp only [decide_eq_true_eq] at h
        rw [add_interval_dead h]
  · have hdp : (pruneDead v).departureTimeReal = v.departureTimeReal := by
      unfold pruneDead
      simp [h]
    rw [hdp]

theorem visitRows_pruneDead (v : VisitRow) : visitRows (pruneDead v) = visitRows v := by
  unfold visitRows
  rw [travelInterval_pruneDead, serviceInterval_pruneDead]

theorem flattenRows_pruneDead (df : List VisitRow) :
    flattenRows (df.map pruneDead) = flattenRows df := by
  induction df with
  | nil => rfl
  | cons v vs ih =>
    unfold flattenRows at ih ⊢
    rw [List.map_cons, List.flatMap_cons, List.flatMap_cons, visitRows_pruneDead, ih]

theorem travelInterval_isSome_iff (v : VisitRow) :
    (travelInterval v).isSome
      ↔ ∃ s e : Int, v.startedTravel = some s ∧ v.arrivalTimeReal = some e ∧ s < e := by
  unfold travelInterval add_interval
  rcases hs : v.startedTravel with _ | s <;> rcases ha : v.arrivalTimeReal with _ | a <;>
    simp

theorem serviceInterval_isSome_iff (v : VisitRow) :
    (serviceInterval v).isSome
      ↔ ∃ s e : Int, v.arrivalTimeReal = some s ∧ v.departureTimeReal = some e ∧ s < e := by
  unfold serviceInterval add_interval
  rcases hs : v.arrivalTimeReal with _ | a <;> rcases hd : v.departureTimeReal with _ | e <;>
    simp

/-- C8: a Travel or Service interval is emitted for a visit iff both of
its endpoints are non-null and start < end; visits failing the test yield
no interval and no error, and removing every interval with start at or
after end from the input changes no output of
calculate_efficiency_stats. -/
theorem claim8_emission_rule :
    (∀ v : VisitRow,
      ((travelInterval v).isSome
        ↔ ∃ s e : Int, v.startedTravel = some s ∧ v.arrivalTimeReal = some e ∧ s < e) ∧
      ((serviceInterval v).isSome
        ↔ ∃ s e : Int, v.arrivalTimeReal = some s ∧ v.departureTimeReal = some e ∧ s < e)) ∧
    (∀ (df : List VisitRow) (targetDate todS todE twm : Int),
      calculate_efficiency_stats (df.map pruneDead) targetDate todS todE twm
        = calculate_efficiency_stats df targetDate todS todE twm) := by
  constructor
  · intro v
    exact ⟨travelInterval_isSome_iff v, serviceInterval_isSome_iff v⟩
  · intro df targetDate todS todE twm
    cases df with
    | nil => rfl
    | cons v vs =>
      unfold calculate_efficiency_stats
      rw [List.map_cons]
      simp only [List.isEmpty_cons, if_neg]
      rw [show flattenRows (pruneDead v :: vs.map pruneDead)
            = flattenRows ((v :: vs).map pruneDead) from rfl,
        flattenRows_pruneDead]

/-- C5: on the empty input table, and likewise when every interval of
every visit is dropped as malformed, calculate_efficiency_stats returns
an empty AggregatedStat table, all three global percentages equal to 0
and an empty plot table, without any error. -/
theorem claim5_empty_input :
    (∀ targetDate todS todE twm : Int,
      calculate_efficiency_stats [] targetDate todS todE twm
        = Except.ok ⟨[], 0, 0, 0, []⟩) ∧
    (∀ (df : List VisitRow) (targetDate todS todE twm : Int), flattenRows df = [] →
      calculate_efficiency_stats df targetDate todS todE twm
        = Except.ok ⟨[], 0, 0, 0, []⟩) := by
  constructor
  · intro targetDate todS todE twm
    rfl
  · intro df targetDate todS todE twm hflat
    cases df with
    | nil => rfl
    | cons v vs =>
      unfold calculate_efficiency_stats
      simp only [List.isEmpty_cons, if_neg]
      unfold calcFromRows
      rw [hflat]
      rfl

/-- Witness for C5 at a dataset whose single visit has only null
timestamps, so that both of its intervals are dropped. -/
theorem claim5_witness :
    flattenRows dfMalformed = [] ∧
    calculate_efficiency_stats dfMalformed 0 28800 61200 540
      = Except.ok ⟨[], 0, 0, 0, []⟩ :=
  ⟨by decide, claim5_empty_input.2 dfMalformed 0 28800 61200 540 (by decide)⟩

/-- C3 is false of the code: with a non-empty dataset and an unusable
configuration (total work minutes 0, or window end before window start)
calculate_efficiency_stats returns a result instead of failing.  In the
Python source the per-technician percentages are computed by pandas
division, which silently produces infinities for a zero denominator, and
the global percentages are silently set to 0 by the total_possible_secs
guard; nothing raises. -/
theorem claim3_no_loud_failure :
    (calculate_efficiency_stats df6 0 28800 61200 0).isOk = true ∧
    (calculate_efficiency_stats df6 0 61200 28800 540).isOk = true := by
  constructor
  · with_unfolding_all decide
  · with_unfolding_all decide

theorem mem_aggregate_tech {p : List PlotRow} {s : List DailyStat} {twm : Int} {t : String}
    (h : ∃ x ∈ s, x.technician = t) :
    t ∈ (aggregate p s twm).map (fun a => a.technician) := by
  unfold aggregate
  rw [List.map_map]
  have hid : ((fun a : AggRow => a.technician) ∘ mkAggRow p s twm) = @id String := by
    funext x
    rfl
  rw [hid, List.map_id, (List.perm_insertionSort _ _).mem_iff, List.mem_dedup, List.mem_map]
  exact h

/-- C4: a (technician, date) pair whose total raw interval duration is
under 5 minutes is excluded by the minimum-activity filter from the
flattened interval table, from the grouping keys, from the DailyStat
list, and hence from the AggregatedStat table and the plot table that
calculate_efficiency_stats returns. -/
theorem claim4_min_activity_filter (df : List VisitRow) (targetDate todS todE twm : Int)
    (t : String) (d : Int)
    (hlow : pairActiveMin (flattenRows df) t d < 5) :
    (∀ r ∈ filteredRows (flattenRows df), ¬(r.technician = t ∧ r.date = d)) ∧
    (t, d) ∉ groupKeys (filteredRows (flattenRows df)) ∧
    (∀ s ∈ dailyStats (filteredRows (flattenRows df)) todS todE,
      ¬(s.technician = t ∧ s.date = d)) ∧
    (∀ res, calculate_efficiency_stats df targetDate todS todE twm = Except.ok res →
      ∀ r ∈ res.plotDf, ¬(r.technician = t ∧ r.date = d)) := by
  have part1 : ∀ r ∈ filteredRows (flattenRows df), ¬(r.technician = t ∧ r.date = d) := by
    intro r hr hkey
    have h5 := (mem_filteredRows.1 hr).2
    rw [hkey.1, hkey.2] at h5
    exact absurd h5 (not_le.2 hlow)
  have part2 : (t, d) ∉ groupKeys (filteredRows (flattenRows df)) := by
    intro hmem
    rcases mem_groupKeys.1 hmem with ⟨r, hr, hkey⟩
    have h1 : r.technician = t := congrArg Prod.fst hkey
    have h2 : r.date = d := congrArg Prod.snd hkey
    exact part1 r hr ⟨h1, h2⟩
  refine ⟨part1, part2, ?_, ?_⟩
  · intro s hs hkey
    unfold dailyStats at hs
    rcases List.mem_map.1 hs with ⟨k, hk, rfl⟩
    rw [dailyStatFor_technician] at hkey
    rw [dailyStatFor_date] at hkey
    have : k = (t, d) := Prod.ext hkey.1 hkey.2
    rw [this] at hk
    exact part2 hk
  · intro res hok r hr
    rcases calculate_cases hok with ⟨_, hplot⟩ | ⟨hplot, _⟩
    · rw [hplot] at hr
      cases hr
    · rw [hplot] at hr
      exact part1 r hr

/-- Witness for C4 at the df4 dataset, where the (T3, day 0) pair has
only 2 minutes of activity. -/
theorem claim4_witness :
    pairActiveMin (flattenRows df4) "T3" 0 < 5 ∧
    ((∀ r ∈ filteredRows (flattenRows df4), ¬(r.technician = "T3" ∧ r.date = 0)) ∧
     ("T3", (0 : Int)) ∉ groupKeys (filteredRows (flattenRows df4)) ∧
     (∀ s ∈ dailyStats (filteredRows (flattenRows df4)) 28800 61200,
       ¬(s.technician = "T3" ∧ s.date = 0)) ∧
     (∀ res, calculate_efficiency_stats df4 0 28800 61200 540 = Except.ok res →
       ∀ r ∈ res.plotDf, ¬(r.technician = "T3" ∧ r.date = 0))) := by
  have hlow : pairActiveMin (flattenRows df4) "T3" 0 < 5 := by
    rw [show (pairActiveMin (flattenRows df4) "T3" 0 < 5)
      = ¬(5 ≤ pairActiveMin (flattenRows df4) "T3" 0) from (propext not_le).symm]
    rw [pairActiveMin_ge_iff]
    decide
  exact ⟨hlow, claim4_min_activity_filter df4 0 28800 61200 540 "T3" 0 hlow⟩

/-- C9: the minimum-activity filter sums raw, unclipped durations, so a
(technician, date) pair with at least 5 minutes of activity lying
entirely outside the calculation window is still retained; its DailyStat
has zero travel and service and idle equal to the full window length, and
the technician still reaches the AggregatedStat table. -/
theorem claim9_raw_filter_outside_window (df : List VisitRow) (todS todE twm : Int)
    (t : String) (d : Int)
    (hmin : 5 ≤ pairActiveMin (flattenRows df) t d)
    (hout : ∀ r ∈ groupRows (flattenRows df) t d,
      r.stop ≤ d * 86400 + todS ∨ d * 86400 + todE ≤ r.start)
    (hwin : todS ≤ todE) :
    (t, d) ∈ groupKeys (filteredRows (flattenRows df)) ∧
    dailyStatFor (filteredRows (flattenRows df)) t d todS todE = ⟨t, d, todE - todS, 0, 0⟩ ∧
    t ∈ (aggregate (filteredRows (flattenRows df))
      (dailyStats (filteredRows (flattenRows df)) todS todE) twm).map (fun a => a.technician) := by
  have hne : groupRows (flattenRows df) t d ≠ [] := by
    intro h
    rw [pairActiveMin_empty h] at hmin
    norm_num at hmin
  have hmemkey : (t, d) ∈ groupKeys (filteredRows (flattenRows df)) := by
    rcases List.exists_mem_of_ne_nil _ hne with ⟨r0, hr0⟩
    rcases mem_groupRows.1 hr0 with ⟨hr0f, ht0, hd0⟩
    have hr0filt : r0 ∈ filteredRows (flattenRows df) := by
      refine mem_filteredRows.2 ⟨hr0f, ?_⟩
      rw [ht0, hd0]
      exact hmin
    exact mem_groupKeys.2 ⟨r0, hr0filt, by rw [ht0, hd0]⟩
  have hallout : ∀ r ∈ List.insertionSort startLe
      (groupRows (filteredRows (flattenRows df)) t d),
      min r.stop (d * 86400 + todE) ≤ max r.start (d * 86400 + todS) := by
    intro r hr
    have hrg : r ∈ groupRows (filteredRows (flattenRows df)) t d :=
      (List.perm_insertionSort startLe _).subset hr
    rcases mem_groupRows.1 hrg with ⟨hrf, hrt, hrd⟩
    have hrraw : r ∈ groupRows (flattenRows df) t d :=
      mem_groupRows.2 ⟨(mem_filteredRows.1 hrf).1, hrt, hrd⟩
    have h1 := min_le_left r.stop (d * 86400 + todE)
    have h2 := min_le_right r.stop (d * 86400 + todE)
    have h3 := le_max_left r.start (d * 86400 + todS)
    have h4 := le_max_right r.start (d * 86400 + todS)
    rcases hout r hrraw with h | h <;> omega
  have hle : d * 86400 + todS ≤ d * 86400 + todE := by omega
  have hw := walkGroup_all_outside hle hallout
  refine ⟨hmemkey, ?_, ?_⟩
  · rw [show dailyStatFor (filteredRows (flattenRows df)) t d todS todE
        = ⟨t, d,
            (walkGroup (d * 86400 + todS) (d * 86400 + todE)
              (List.insertionSort startLe (groupRows (filteredRows (flattenRows df)) t d))).idle,
            (walkGroup (d * 86400 + todS) (d * 86400 + todE)
              (List.insertionSort startLe (groupRows (filteredRows (flattenRows df)) t d))).travel,
            (walkGroup (d * 86400 + todS) (d * 86400 + todE)
              (List.insertionSort startLe (groupRows (filteredRows (flattenRows df)) t d))).service⟩
      from rfl, hw]
    show (⟨t, d, d * 86400 + todE - (d * 86400 + todS), 0, 0⟩ : DailyStat)
      = ⟨t, d, todE - todS, 0, 0⟩
    congr 1
    omega
  · apply mem_aggregate_tech
    refine ⟨dailyStatFor (filteredRows (flattenRows df)) t d todS todE, ?_, rfl⟩
    unfold dailyStats
    exact List.mem_map_of_mem _ hmemkey

/-- Witness for C9 at the df9 dataset: 30 minutes of travel 06:00-06:30,
before the 08:00-17:00 window, still yields a retained group with a full
idle window. -/
theorem claim9_witness :
    5 ≤ pairActiveMin (flattenRows df9) "T2" 0 ∧
    (∀ r ∈ groupRows (flattenRows df9) "T2" 0,
      r.stop ≤ 0 * 86400 + 28800 ∨ 0 * 86400 + 61200 ≤ r.start) ∧
    (("T2", (0 : Int)) ∈ groupKeys (filteredRows (flattenRows df9)) ∧
     dailyStatFor (filteredRows (flattenRows df9)) "T2" 0 28800 61200
       = ⟨"T2", 0, 61200 - 28800, 0, 0⟩ ∧
     "T2" ∈ (aggregate (filteredRows (flattenRows df9))
       (dailyStats (filteredRows (flattenRows df9)) 28800 61200) 540).map
         (fun a => a.technician)) := by
  have hmin : 5 ≤ pairActiveMin (flattenRows df9) "T2" 0 := by
    rw [pairActiveMin_ge_iff]
    decide
  have hout : ∀ r ∈ groupRows (flattenRows df9) "T2" 0,
      r.stop ≤ 0 * 86400 + 28800 ∨ 0 * 86400 + 61200 ≤ r.start := by
    decide
  exact ⟨hmin, hout,
    claim9_raw_filter_outside_window df9 28800 61200 540 "T2" 0 hmin hout (by decide)⟩

theorem aggRow_ext {a b : AggRow}
    (h : a.technician = b.technician ∧ a.idleSecs = b.idleSecs ∧ a.travelSecs = b.travelSecs
      ∧ a.serviceSecs = b.serviceSecs ∧ a.idleMins = b.idleMins ∧ a.travelMins = b.travelMins
      ∧ a.days = b.days ∧ a.totalWorkMins = b.totalWorkMins ∧ a.idlePct = b.idlePct
      ∧ a.travelPct = b.travelPct ∧ a.optPct = b.optPct) : a = b := by
  cases a
  cases b
  simp only [AggRow.mk.injEq]
  exact h

theorem mkAggRow_pcts {p : List PlotRow} {s : List DailyStat} {twm : Int} {t : String} :
    (mkAggRow p s twm t).idlePct
        = pyRound1 (((mkAggRow p s twm t).idleMins : ℚ)
            / (((mkAggRow p s twm t).totalWorkMins : Int) : ℚ) * 100) ∧
      (mkAggRow p s twm t).travelPct
        = pyRound1 (((mkAggRow p s twm t).travelMins : ℚ)
            / (((mkAggRow p s twm t).totalWorkMins : Int) : ℚ) * 100) ∧
      (mkAggRow p s twm t).optPct
        = pyRound1 ((((mkAggRow p s twm t).idleMins + (mkAggRow p s twm t).travelMins : Int) : ℚ)
            / (((mkAggRow p s twm t).totalWorkMins : Int) : ℚ) * 100) :=
  ⟨rfl, rfl, rfl⟩

set_option maxRecDepth 2048 in
theorem mkAggRow_df6_eval : mkAggRow L6 [S6] 540 "T1" = aggRow6 := by
  refine aggRow_ext ⟨rfl, by decide, by decide, by decide, by decide, by decide,
    by decide, by decide, ?_, ?_, ?_⟩
  · rw [mkAggRow_pcts.1,
      show (mkAggRow L6 [S6] 540 "T1").idleMins = (490 : Int) from by decide,
      show (mkAggRow L6 [S6] 540 "T1").totalWorkMins = (540 : Int) from by decide]
    with_unfolding_all decide
  · rw [mkAggRow_pcts.2.1,
      show (mkAggRow L6 [S6] 540 "T1").travelMins = (10 : Int) from by decide,
      show (mkAggRow L6 [S6] 540 "T1").totalWorkMins = (540 : Int) from by decide]
    with_unfolding_all decide
  · rw [mkAggRow_pcts.2.2,
      show (mkAggRow L6 [S6] 540 "T1").idleMins = (490 : Int) from by decide,
      show (mkAggRow L6 [S6] 540 "T1").travelMins = (10 : Int) from by decide,
      show (mkAggRow L6 [S6] 540 "T1").totalWorkMins = (540 : Int) from by decide]
    with_unfolding_all decide

theorem aggregate_df6_eval : aggregate L6 [S6] 540 = [aggRow6] := by
  unfold aggregate
  rw [show List.insertionSort (fun a b : String => a ≤ b)
      (([S6].map (fun x => x.technician)).dedup) = ["T1"] from by decide]
  rw [show (["T1"].map (mkAggRow L6 [S6] 540)) = [mkAggRow L6 [S6] 540 "T1"] from rfl]
  rw [mkAggRow_df6_eval]

set_option maxRecDepth 2048 in
theorem dailyStats_df6_eval : dailyStats L6 28800 61200 = [S6] := by decide

theorem calcResult_ext {a b : CalcResult}
    (h : a.aggStats = b.aggStats ∧ a.idlePct = b.idlePct ∧ a.travelPct = b.travelPct
      ∧ a.servicePct = b.servicePct ∧ a.plotDf = b.plotDf) : a = b := by
  cases a
  cases b
  simp only [CalcResult.mk.injEq]
  exact h

set_option maxRecDepth 2048 in
theorem calc_df6_eval : calculate_efficiency_stats df6 0 28800 61200 540 = Except.ok res6 := by
  have hfL6 : filteredRows L6 = L6 := by
    have h := filteredRows_df6_eval
    rw [flattenRows_df6_eval] at h
    exact h
  unfold calculate_efficiency_stats
  rw [if_neg (by decide : ¬(df6.isEmpty = true))]
  rw [flattenRows_df6_eval]
  unfold calcFromRows
  rw [if_neg (by decide : ¬(L6.isEmpty = true))]
  simp only [hfL6, dailyStats_df6_eval]
  rw [if_neg (by decide : ¬(([S6] : List DailyStat).isEmpty = true))]
  rw [aggregate_df6_eval]
  refine congrArg Except.ok (calcResult_ext ⟨rfl, ?_, ?_, ?_, rfl⟩)
  · rw [show res6.idlePct = (907/10 : ℚ) from rfl,
      if_pos (by decide : (0 : Int) < (([S6] : List DailyStat).length : Int) * 540 * 60),
      show (List.map (fun x : DailyStat => x.idleSecs) [S6]).sum = (29400 : Int) from by decide,
      show ((([S6] : List DailyStat).length : Int) * 540 * 60) = (32400 : Int) from by decide]
    with_unfolding_all decide
  · rw [show res6.travelPct = (19/10 : ℚ) from rfl,
      if_pos (by decide : (0 : Int) < (([S6] : List DailyStat).length : Int) * 540 * 60),
      show (List.map (fun x : DailyStat => x.travelSecs) [S6]).sum = (600 : Int) from by decide,
      show ((([S6] : List DailyStat).length : Int) * 540 * 60) = (32400 : Int) from by decide]
    with_unfolding_all decide
  · rw [show res6.servicePct = (74/10 : ℚ) from rfl,
      if_pos (by decide : (0 : Int) < (([S6] : List DailyStat).length : Int) * 540 * 60),
      show (List.map (fun x : DailyStat => x.serviceSecs) [S6]).sum = (2400 : Int) from by decide,
      show ((([S6] : List DailyStat).length : Int) * 540 * 60) = (32400 : Int) from by decide]
    with_unfolding_all decide

/-- C6: for the single visit of technician T1 with travel 08:50-09:00 and
service 09:00-09:40, window 08:00-17:00 and 540 total work minutes per
day, calculate_efficiency_stats returns travel 10 minutes (600 seconds),
service 40 minutes (2400 seconds), idle 490 minutes (29400 seconds),
Idle percent 90.7, Travel percent 1.9 and Opt percent 92.6, exactly the
result value res6. -/
theorem claim6_concrete_scenario :
    calculate_efficiency_stats df6 0 28800 61200 540 = Except.ok res6 ∧
    aggRow6.travelMins = 10 ∧ aggRow6.serviceSecs = 40 * 60 ∧ aggRow6.idleMins = 490 ∧
    aggRow6.idlePct = 907/10 ∧ aggRow6.travelPct = 19/10 ∧ aggRow6.optPct = 926/10 := by
  refine ⟨calc_df6_eval, rfl, rfl, rfl, rfl, rfl, ?_⟩
  with_unfolding_all decide

/-- C7: every technician row of the AggregatedStat output has idle and
travel minutes obtained from the accumulated seconds by integer
truncation, total available minutes equal to days worked times the
total-work-minutes-per-day parameter, days worked equal to the number of
distinct qualifying dates of that technician, and the three percentages
equal to the respective minute counts divided by the total available
minutes, times 100, rounded to one decimal. -/
theorem claim7_agg_formulas (df : List VisitRow) (targetDate todS todE twm : Int)
    (res : CalcResult)
    (hok : calculate_efficiency_stats df targetDate todS todE twm = Except.ok res)
    (a : AggRow) (ha : a ∈ res.aggStats) :
    a.idleMins = a.idleSecs.tdiv 60 ∧
    a.travelMins = a.travelSecs.tdiv 60 ∧
    a.totalWorkMins = (a.days : Int) * twm ∧
    a.days = techDays res.plotDf a.technician ∧
    a.idlePct = pyRound1 ((a.idleMins : ℚ) / ((a.totalWorkMins : Int) : ℚ) * 100) ∧
    a.travelPct = pyRound1 ((a.travelMins : ℚ) / ((a.totalWorkMins : Int) : ℚ) * 100) ∧
    a.optPct = pyRound1 (((a.idleMins + a.travelMins : Int) : ℚ)
      / ((a.totalWorkMins : Int) : ℚ) * 100) := by
  rcases calculate_cases hok with ⟨hagg, _⟩ | ⟨hplot, hagg⟩
  · rw [hagg] at ha
    cases ha
  · rw [hagg] at ha
    unfold aggregate at ha
    rcases List.mem_map.1 ha with ⟨t', _, rfl⟩
    rw [hplot]
    exact ⟨rfl, rfl, rfl, rfl, rfl, rfl, rfl⟩

/-- Witness for C7 at the df6 dataset and its result res6. -/
theorem claim7_witness :
    calculate_efficiency_stats df6 0 28800 61200 540 = Except.ok res6 ∧
    aggRow6 ∈ res6.aggStats ∧
    aggRow6.idleMins = aggRow6.idleSecs.tdiv 60 ∧
    aggRow6.travelMins = aggRow6.travelSecs.tdiv 60 ∧
    aggRow6.totalWorkMins = (aggRow6.days : Int) * 540 ∧
    aggRow6.days = techDays res6.plotDf aggRow6.technician ∧
    aggRow6.idlePct = pyRound1 ((aggRow6.idleMins : ℚ)
      / ((aggRow6.totalWorkMins : Int) : ℚ) * 100) ∧
    aggRow6.travelPct = pyRound1 ((aggRow6.travelMins : ℚ)
      / ((aggRow6.totalWorkMins : Int) : ℚ) * 100) ∧
    aggRow6.optPct = pyRound1 (((aggRow6.idleMins + aggRow6.travelMins : Int) : ℚ)
      / ((aggRow6.totalWorkMins : Int) : ℚ) * 100) :=
  ⟨calc_df6_eval, List.mem_singleton.2 rfl,
    claim7_agg_formulas df6 0 28800 61200 540 res6 calc_df6_eval aggRow6
      (List.mem_singleton.2 rfl)⟩
